import Mathlib

/-!
Verification of the walkingpad device session driver (Go sources:
walkingpad.go, internal/walkingpads/kingsmith.go, internal/app/app.go).

Shallow embedding conventions:
- Go `byte` values are `Nat`; wraparound arithmetic carries an explicit `% 256`.
- Go `float64` values (speeds, distances) are modelled as `ℚ`; every value the
  spec mentions (multiples of 0.1 at small magnitude) is exact in both.
- Go `time.Duration` values are `Int` seconds (status fields) or `Nat`
  milliseconds (queue-entry delays).
- A Go runtime panic (out-of-range index, closing a closed channel, an explicit
  `panic` call) is a failure value: `Option.none` or `Except.error ()`.
-/

namespace Walkingpad

/-! ## Frame codec (walkingpad.go `fixCrc`, `pushCmd`, command constructors) -/

/-- `fixCrc` from walkingpad.go (identical in kingsmith.go): for a frame of
length ≥ 2, sum the bytes at indices 1 .. len-3 with 8-bit wraparound and store
the sum at index len-2; shorter frames are returned unchanged. -/
def fixCrc (cmd : List Nat) : List Nat :=
  if cmd.length < 2 then cmd
  else cmd.set (cmd.length - 2)
    (((cmd.drop 1).take (cmd.length - 3)).foldl (fun a b => (a + b) % 256) 0)

/-- One entry of the bounded command queue (`walkingPadCommand`): an optional
delay in milliseconds and an optional byte buffer (`none` models Go's nil
buffer of a wait entry). -/
structure QueueEntry where
  timeout : Nat
  buffer : Option (List Nat)
deriving DecidableEq

/-- `pushCmd`: runs `fixCrc` on the buffer (a nil buffer stays nil, since
`fixCrc` leaves frames shorter than 2 bytes alone) and builds the queue entry. -/
def pushedEntry (buf : Option (List Nat)) (timeout : Nat) : QueueEntry :=
  { timeout := timeout, buffer := buf.map fixCrc }

/-- Frame enqueued by `ChangeMode`. -/
def changeModeFrame (mode : Nat) : List Nat := fixCrc [247, 162, 2, mode, 255, 253]

/-- Frame enqueued by `StartBelt`. -/
def startBeltFrame : List Nat := fixCrc [247, 162, 4, 1, 255, 253]

/-- Frame enqueued by `ChangeSpeed` (cnv is the already-converted speed byte). -/
def changeSpeedFrame (cnv : Nat) : List Nat := fixCrc [247, 162, 1, cnv, 255, 253]

/-- Frame enqueued by `AskStats`. -/
def askStatsFrame : List Nat := fixCrc [247, 162, 0, 0, 162, 253]

/-- Queue entry built by `ChangeMode`. -/
def changeModeCmd (mode : Nat) : QueueEntry := pushedEntry (some [247, 162, 2, mode, 255, 253]) 0

/-- Queue entry built by `StartBelt`. -/
def startBeltCmd : QueueEntry := pushedEntry (some [247, 162, 4, 1, 255, 253]) 0

/-- Queue entry built by `ChangeSpeed` for the converted byte `cnv`. -/
def changeSpeedCmd (cnv : Nat) : QueueEntry := pushedEntry (some [247, 162, 1, cnv, 255, 253]) 0

/-- Queue entry built by `AskStats`. -/
def askStatsCmd : QueueEntry := pushedEntry (some [247, 162, 0, 0, 162, 253]) 0

/-- Queue entry built by `WaitCmd`: nil buffer, only a delay. -/
def waitCmd (timeout : Nat) : QueueEntry := pushedEntry none timeout

/-- A frame whose byte at index len-2 equals the 8-bit wraparound sum of the
interior bytes (every byte except the header at index 0, the checksum byte at
index len-2 and the trailer at index len-1). -/
def checksumOk (bs : List Nat) : Prop :=
  bs.getD (bs.length - 2) 0 = ((bs.drop 1).take (bs.length - 3)).sum % 256

/-! ## Status decoding (walkingpad.go `readStatusBuffer`, `onBufferReceive`) -/

/-- Device modes (walkingpad.go / kingsmith.go constants). -/
def WalkingPadModeAuto : Nat := 0

/-- Manual mode constant. -/
def WalkingPadModeManual : Nat := 1

/-- Standby mode constant. -/
def WalkingPadModeStandby : Nat := 2

/-- `WalkingPadStatus` / `KingsmithPadStatus`: one decoded telemetry reading. -/
structure WalkingPadStatus where
  Speed : ℚ
  Mode : Nat
  Time : Int
  WalkedKM : ℚ
  Steps : Int
deriving DecidableEq

/-- `readStatusBuffer` from walkingpad.go (identical to
`readKingsmithStatusBuffer`): reads the payload that follows the 2-byte status
signature. The Go code indexes `buf[1]` .. `buf[11]` with no length guard, so
an access past the end is an out-of-range panic, modelled as `none`. -/
def readStatusBuffer (buf : List Nat) : Option WalkingPadStatus := do
  let b1 ← buf[1]?
  let b2 ← buf[2]?
  let b3 ← buf[3]?
  let b4 ← buf[4]?
  let b5 ← buf[5]?
  let b6 ← buf[6]?
  let b7 ← buf[7]?
  let b8 ← buf[8]?
  let b9 ← buf[9]?
  let b10 ← buf[10]?
  let b11 ← buf[11]?
  let timeS : Nat := b3 <<< 16 ||| b4 <<< 8 ||| b5
  let dist : Nat := b6 <<< 16 ||| b7 <<< 8 ||| b8
  pure {
    Speed := (b1 : ℚ) / 10
    Mode := b2
    Time := (timeS : Int)
    WalkedKM := (dist : ℚ) / 100
    Steps := ((b9 <<< 16 ||| b10 <<< 8 ||| b11 : Nat) : Int) }

/-- Result of delivering one notification frame to `onBufferReceive`. -/
inductive RecvOutcome where
  | ignored
  | updated (s : WalkingPadStatus)
  | panicked
deriving DecidableEq

/-- True exactly on the `panicked` outcome. -/
def RecvOutcome.isPanicked : RecvOutcome → Bool
  | .panicked => true
  | _ => false

/-- `onBufferReceive`: frames shorter than 2 bytes are ignored; a frame whose
first two bytes are the status signature {248,162} is decoded from byte 2 on
(no further length check, so a short payload panics); any other frame is
ignored. -/
def onBufferReceive (buf : List Nat) : RecvOutcome :=
  if buf.length < 2 then .ignored
  else if buf.getD 0 0 = 248 ∧ buf.getD 1 0 = 162 then
    match readStatusBuffer (buf.drop 2) with
    | some s => .updated s
    | none => .panicked
  else .ignored

/-! ## Intent handling (walkingpad.go `ChangeSpeed`, kingsmith.go `processCmds`) -/

/-- The tagged command variants sent to a pad (internal `WalkingpadCommand`). -/
inductive WalkingpadCommand where
  | cmdStart (speed : ℚ)
  | cmdStop
  | cmdChangeSpeed (speed : ℚ)
deriving DecidableEq

/-- `ChangeSpeed`: speeds outside [0,6] km/h hit `panic("invalid speed")`,
modelled as `Except.error ()`; otherwise the speed is converted with
`byte(speed * 10.0)` (truncation, which is the floor on the non-negative valid
range) and exactly one speed-change entry is produced. -/
def ChangeSpeed (speed : ℚ) : Except Unit QueueEntry :=
  if speed < 0 ∨ 6 < speed then .error ()
  else .ok (changeSpeedCmd ⌊speed * 10⌋.toNat)

/-- `processCmds` handling of one received command (kingsmith.go), given the
pad's last known mode (`pad.LastStatus.Mode`). Returns the queue entries
pushed, in order, or an error when `ChangeSpeed` panics. -/
def processCmds (lastMode : Nat) (cmd : WalkingpadCommand) : Except Unit (List QueueEntry) :=
  match cmd with
  | .cmdStart speed =>
    let pre := if lastMode = WalkingPadModeStandby then [changeModeCmd WalkingPadModeManual] else []
    match ChangeSpeed speed with
    | .ok cs => .ok (pre ++ [startBeltCmd, waitCmd 2500, cs])
    | .error e => .error e
  | .cmdStop =>
    match ChangeSpeed 0 with
    | .ok cs => .ok [cs]
    | .error e => .error e
  | .cmdChangeSpeed speed =>
    match ChangeSpeed speed with
    | .ok cs => .ok [cs]
    | .error e => .error e

/-! ## Driver teardown (walkingpad.go `Disconnect`) -/

/-- The part of a `WalkingPad` relevant to teardown: the `stopped` guard flag
plus counters for each release effect (queue close, context cancel, waitgroup
join, transport disconnect). -/
structure DriverState where
  stopped : Bool
  queueCloses : Nat
  cancels : Nat
  joins : Nat
  deviceDisconnects : Nat
deriving DecidableEq

/-- A freshly connected driver (`newWalkingPad`): not stopped, nothing released. -/
def newDriver : DriverState :=
  { stopped := false, queueCloses := 0, cancels := 0, joins := 0, deviceDisconnects := 0 }

/-- `Disconnect`: a no-op once `stopped` is set; otherwise it sets `stopped`
and performs each release step once. Closing an already-closed queue would be
a Go panic (`close` of a closed channel), modelled as `Except.error ()`. -/
def Disconnect (st : DriverState) : Except Unit DriverState :=
  if st.stopped then .ok st
  else if 0 < st.queueCloses then .error ()
  else .ok { stopped := true, queueCloses := st.queueCloses + 1, cancels := st.cancels + 1,
             joins := st.joins + 1, deviceDisconnects := st.deviceDisconnects + 1 }

/-- `n` consecutive `Disconnect` calls on the same driver. -/
def disconnectN : Nat → DriverState → Except Unit DriverState
  | 0, st => .ok st
  | n + 1, st => (Disconnect st).bind (disconnectN n)

/-! ## Supervisor session state (internal/app/app.go) -/

/-- `internal.UpdateStats`: the reading the supervisor consumes each tick. -/
structure UpdateStats where
  Speed : ℚ
  Time : Int
  WalkedKM : ℚ
  Steps : Int
deriving DecidableEq

/-- The supervisor's `state` struct fields used by the Ready-tick logic:
`started` flag, last consumed reading, start timestamp and the six
accumulators (`time.Time{}` is modelled as timestamp 0). -/
structure SessionState where
  started : Bool
  status : UpdateStats
  startedAt : Int
  timeAccum : Int
  timeAccumTotal : Int
  stepsAccum : Int
  stepsAccumTotal : Int
  kmAccum : ℚ
  kmAccumTotal : ℚ
deriving DecidableEq

/-- `onBeltStart`: mark the session started and record the start time. -/
def onBeltStart (now : Int) (st : SessionState) : SessionState :=
  { st with started := true, startedAt := now }

/-- Outcome of the webhook HTTP delivery attempt (external collaborator):
either the request could not be created/sent, or it returned a status code. -/
inductive WebhookOutcome where
  | requestFailed
  | httpStatus (code : Nat)
deriving DecidableEq

/-- The `sent` result of `sendWebhook`: false when no webhook URL is
configured, when the session was shorter than the threshold, when the request
fails, or when the response status is not 200; true only on a 200 response.
The URL is modelled by its presence (its text never influences `sent`). -/
def sendWebhook (webhookURL : Option Unit) (sinceStart threshold : Int)
    (outcome : WebhookOutcome) : Bool :=
  match webhookURL with
  | none => false
  | some _ =>
    if sinceStart < threshold then false
    else
      match outcome with
      | .requestFailed => false
      | .httpStatus code => code = 200

/-- `onBeltStop`: clear `started`; reset the start timestamp and the
since-start accumulators only when the webhook was reported sent. -/
def onBeltStop (sent : Bool) (st : SessionState) : SessionState :=
  let st := { st with started := false }
  if sent then { st with startedAt := 0, timeAccum := 0, stepsAccum := 0, kmAccum := 0 }
  else st

/-- The "sync external changes" block of the Ready tick (app.go): `st.status`
already holds the new reading, `lastSpeed` is the previous reading's speed.
`sent` and `now` feed the `onBeltStop`/`onBeltStart` calls it may make. -/
def syncExternalChanges (sent : Bool) (now : Int) (lastSpeed : ℚ)
    (st : SessionState) : SessionState :=
  let tempoDiff := st.status.Speed - lastSpeed
  let st1 := if ¬st.started ∧ 0 < tempoDiff then onBeltStart now st else st
  if st1.started ∧ tempoDiff < 0 ∧ st1.status.Speed = 0 then onBeltStop sent st1 else st1

/-- The accumulate block of the Ready tick (app.go): `st.status` already holds
the new reading; add the three deltas against `lastStatus` to all six
accumulators, but only while started and only when every delta is
non-negative. -/
def accumulateTick (lastStatus : UpdateStats) (st : SessionState) : SessionState :=
  if st.started then
    let timeDiff := st.status.Time - lastStatus.Time
    let stepsDiff := st.status.Steps - lastStatus.Steps
    let kmDiff := st.status.WalkedKM - lastStatus.WalkedKM
    if 0 ≤ timeDiff ∧ 0 ≤ stepsDiff ∧ 0 ≤ kmDiff then
      { st with
          timeAccum := st.timeAccum + timeDiff
          timeAccumTotal := st.timeAccumTotal + timeDiff
          stepsAccum := st.stepsAccum + stepsDiff
          stepsAccumTotal := st.stepsAccumTotal + stepsDiff
          kmAccum := st.kmAccum + kmDiff
          kmAccumTotal := st.kmAccumTotal + kmDiff }
    else st
  else st

/-- One accumulate step consuming a new reading `r`: replace the stored status
and run the accumulate block against the previous one. -/
def accumStep (st : SessionState) (r : UpdateStats) : SessionState :=
  accumulateTick st.status { st with status := r }

/-- Consume a list of readings with consecutive accumulate steps. -/
def accumRun (st : SessionState) : List UpdateStats → SessionState
  | [] => st
  | r :: rs => accumRun (accumStep st r) rs

/-- The full Ready-tick body (app.go lines 100-125): store the new reading,
sync external changes, then accumulate. -/
def readyTick (sent : Bool) (now : Int) (r : UpdateStats) (st : SessionState) : SessionState :=
  let lastStatus := st.status
  accumulateTick lastStatus (syncExternalChanges sent now lastStatus.Speed { st with status := r })

/-- The pieces of app state visible to the speed-menu click handler. -/
structure UIState where
  targetSpeed : ℚ
  connReady : Bool
  started : Bool
deriving DecidableEq

/-- The speed-menu click handler (app.go `setupUI`): record the new target
speed and, only when connected-ready and started, send one change-speed
command. -/
def onSpeedClick (app : UIState) (v : ℚ) : UIState × List WalkingpadCommand :=
  let app := { app with targetSpeed := v }
  if app.connReady ∧ app.started then (app, [.cmdChangeSpeed v]) else (app, [])

/-! ## Helper lemmas -/

/-- Folding the wraparound byte addition equals the plain sum reduced mod 256. -/
lemma foldl_add_mod (l : List Nat) (a : Nat) :
    l.foldl (fun x y => (x + y) % 256) (a % 256) = (a + l.sum) % 256 := by
  induction l generalizing a with
  | nil => simp
  | cons b t ih =>
    simp only [List.foldl_cons, List.sum_cons]
    rw [Nat.mod_add_mod, ih (a + b)]
    ring_nf

/-- The wraparound byte-sum computed by `fixCrc`, from accumulator 0. -/
lemma foldl_add_mod_zero (l : List Nat) :
    l.foldl (fun x y => (x + y) % 256) 0 = l.sum % 256 := by
  have h := foldl_add_mod l 0
  simpa using h

/-- Shifted-or of disjoint byte ranges is addition. -/
lemma shiftLeft_lor_eq_add (a : Nat) :
    ∀ n b : Nat, b < 2 ^ n → a <<< n ||| b = a * 2 ^ n + b := by
  intro n
  induction n with
  | zero =>
    intro b hb
    have hb0 : b = 0 := by omega
    subst hb0
    simp [Nat.shiftLeft_eq]
  | succ n ih =>
    intro b hb
    have hpow : (2 : Nat) ^ (n + 1) = 2 ^ n * 2 := by rw [Nat.pow_succ]
    have hb2 : b / 2 < 2 ^ n := by omega
    have hX : a <<< (n + 1) = a * 2 ^ n * 2 := by
      rw [Nat.shiftLeft_eq, hpow, Nat.mul_assoc]
    have hXdiv : a <<< (n + 1) / 2 = a * 2 ^ n := by
      rw [hX, Nat.mul_div_cancel _ (by omega)]
    have hXmod : a <<< (n + 1) % 2 = 0 := by
      rw [hX, Nat.mul_mod_left]
    have hdiv : (a <<< (n + 1) ||| b) / 2 = a * 2 ^ n + b / 2 := by
      rw [Nat.or_div_two, hXdiv]
      have hres := ih (b / 2) hb2
      rw [Nat.shiftLeft_eq] at hres
      exact hres
    have hmod : (a <<< (n + 1) ||| b) % 2 = b % 2 := by
      have hiff := Nat.or_mod_two_eq_one (a := a <<< (n + 1)) (b := b)
      omega
    have hsplit := Nat.div_add_mod (a <<< (n + 1) ||| b) 2
    omega

/-- Setting the checksum position does not change the summed interior range. -/
lemma interior_set (l : List Nat) (v : Nat) :
    (((l.set (l.length - 2) v).drop 1).take (l.length - 3))
      = ((l.drop 1).take (l.length - 3)) := by
  apply List.ext_getElem?
  intro i
  rw [List.getElem?_take, List.getElem?_take]
  split
  · next hi =>
    rw [List.getElem?_drop, List.getElem?_drop, List.getElem?_set_ne (by omega)]
  · rfl

/-- `fixCrc` preserves the frame length. -/
lemma fixCrc_length (cmd : List Nat) : (fixCrc cmd).length = cmd.length := by
  unfold fixCrc
  split
  · rfl
  · simp

/-- `fixCrc` leaves every byte other than the one at index len-2 unchanged. -/
lemma fixCrc_getElem?_ne (cmd : List Nat) (i : Nat) (h : i ≠ cmd.length - 2) :
    (fixCrc cmd)[i]? = cmd[i]? := by
  unfold fixCrc
  split
  · rfl
  · exact List.getElem?_set_ne (fun hc => h hc.symm)

/-- `fixCrc` applied twice equals `fixCrc` applied once. -/
lemma fixCrc_idem (cmd : List Nat) : fixCrc (fixCrc cmd) = fixCrc cmd := by
  unfold fixCrc
  split
  · next h => rfl
  · next h =>
    rw [if_neg (by simpa using h)]
    simp only [List.length_set]
    rw [interior_set, List.set_set]

/-- `fixCrc` is the identity on frames shorter than 2 bytes. -/
lemma fixCrc_short (cmd : List Nat) (h : cmd.length < 2) : fixCrc cmd = cmd := by
  unfold fixCrc
  rw [if_pos h]

/-- The checksum byte written by `fixCrc` on a frame of length ≥ 2. -/
lemma fixCrc_checksum (cmd : List Nat) (h : 2 ≤ cmd.length) :
    (fixCrc cmd)[cmd.length - 2]? =
      some (((cmd.drop 1).take (cmd.length - 3)).sum % 256) := by
  unfold fixCrc
  rw [if_neg (by omega)]
  rw [foldl_add_mod_zero]
  exact List.getElem?_set_self (by omega)

/-- A frame produced by `fixCrc` from a frame of length ≥ 2 has a correct
checksum byte: `fixCrc` never reads the positions it excludes, so re-summing
the output's interior reproduces the written byte. -/
lemma fixCrc_checksumOk (cmd : List Nat) (h : 2 ≤ cmd.length) :
    checksumOk (fixCrc cmd) := by
  unfold checksumOk
  rw [fixCrc_length]
  have hget := fixCrc_checksum cmd h
  have hinterior : ((fixCrc cmd).drop 1).take (cmd.length - 3)
      = (cmd.drop 1).take (cmd.length - 3) := by
    unfold fixCrc
    rw [if_neg (by omega)]
    exact interior_set cmd _
  rw [hinterior]
  have hlt : cmd.length - 2 < (fixCrc cmd).length := by
    rw [fixCrc_length]; omega
  rw [List.getD_eq_getElem?_getD, hget]
  rfl

/-- One accumulate step never decreases any of the six accumulators. -/
lemma accumStep_mono (st : SessionState) (r : UpdateStats) :
    st.timeAccum ≤ (accumStep st r).timeAccum ∧
    st.timeAccumTotal ≤ (accumStep st r).timeAccumTotal ∧
    st.stepsAccum ≤ (accumStep st r).stepsAccum ∧
    st.stepsAccumTotal ≤ (accumStep st r).stepsAccumTotal ∧
    st.kmAccum ≤ (accumStep st r).kmAccum ∧
    st.kmAccumTotal ≤ (accumStep st r).kmAccumTotal := by
  unfold accumStep accumulateTick
  dsimp only
  split
  · split
    · next h =>
      obtain ⟨h1, h2, h3⟩ := h
      refine ⟨?_, ?_, ?_, ?_, ?_, ?_⟩ <;> dsimp only <;> linarith
    · simp
  · simp

/-- A run of accumulate steps never decreases any accumulator. -/
lemma accumRun_mono (rs : List UpdateStats) : ∀ st : SessionState,
    st.timeAccum ≤ (accumRun st rs).timeAccum ∧
    st.timeAccumTotal ≤ (accumRun st rs).timeAccumTotal ∧
    st.stepsAccum ≤ (accumRun st rs).stepsAccum ∧
    st.stepsAccumTotal ≤ (accumRun st rs).stepsAccumTotal ∧
    st.kmAccum ≤ (accumRun st rs).kmAccum ∧
    st.kmAccumTotal ≤ (accumRun st rs).kmAccumTotal := by
  induction rs with
  | nil => intro st; simp [accumRun]
  | cons r rs ih =>
    intro st
    obtain ⟨a1, a2, a3, a4, a5, a6⟩ := accumStep_mono st r
    obtain ⟨b1, b2, b3, b4, b5, b6⟩ := ih (accumStep st r)
    unfold accumRun
    exact ⟨le_trans a1 b1, le_trans a2 b2, le_trans a3 b3,
           le_trans a4 b4, le_trans a5 b5, le_trans a6 b6⟩

/-- Once the driver is stopped, any number of further `Disconnect` calls is an
error-free no-op. -/
lemma disconnectN_stopped (n : Nat) (st : DriverState) (h : st.stopped = true) :
    disconnectN n st = .ok st := by
  induction n with
  | zero => rfl
  | succ n ih => simp [disconnectN, Disconnect, h, ih, Except.bind]

/-- The big-endian 24-bit combination used by the decoder, as plain
arithmetic: shifted-or of disjoint byte ranges is addition. -/
lemma lor3_eq (x y z : Nat) (hy : y < 256) (hz : z < 256) :
    x <<< 16 ||| y <<< 8 ||| z = x * 65536 + y * 256 + z := by
  have h8 : (2 : Nat) ^ 8 = 256 := by norm_num
  have h16 : (2 : Nat) ^ 16 = 65536 := by norm_num
  have hyz : y <<< 8 ||| z = y * 256 + z := by
    have h := shiftLeft_lor_eq_add y 8 z (by rw [h8]; exact hz)
    rw [h8] at h
    exact h
  have hlt : y * 256 + z < 2 ^ 16 := by rw [h16]; omega
  rw [Nat.or_assoc, hyz]
  have h2 := shiftLeft_lor_eq_add x 16 (y * 256 + z) hlt
  rw [h16] at h2
  rw [h2]
  omega

/-! ## Claim theorems -/

/-- C5: every generated command frame (ChangeMode, ChangeSpeed, StartBelt,
AskStats) carries at position len-2 the 8-bit wraparound sum of its interior
bytes (all bytes except the header at index 0, the checksum byte itself and
the trailer). -/
theorem generated_command_checksums (mode cnv : Nat) :
    checksumOk (changeModeFrame mode) ∧ checksumOk (changeSpeedFrame cnv) ∧
    checksumOk startBeltFrame ∧ checksumOk askStatsFrame :=
  ⟨fixCrc_checksumOk _ (by simp), fixCrc_checksumOk _ (by simp),
   fixCrc_checksumOk _ (by simp), fixCrc_checksumOk _ (by simp)⟩

/-- C10: for any byte frame, `fixCrc` preserves the length, changes at most
the byte at index length-2, is idempotent, and returns frames shorter than
2 bytes (including the nil buffer of a wait entry) unmodified. -/
theorem fixCrc_frame_effect (cmd : List Nat) (t : Nat) :
    (fixCrc cmd).length = cmd.length ∧
    (∀ i, i ≠ cmd.length - 2 → (fixCrc cmd)[i]? = cmd[i]?) ∧
    fixCrc (fixCrc cmd) = fixCrc cmd ∧
    (cmd.length < 2 → fixCrc cmd = cmd) ∧
    waitCmd t = { timeout := t, buffer := none } :=
  ⟨fixCrc_length cmd, fun i hi => fixCrc_getElem?_ne cmd i hi, fixCrc_idem cmd,
   fixCrc_short cmd, rfl⟩

/-- C10 witness: on the concrete AskStats frame, `fixCrc` leaves the header
byte in place, and a 1-byte frame passes through unmodified. -/
theorem fixCrc_frame_effect_witness :
    (fixCrc [247, 162, 0, 0, 162, 253])[0]? = some 247 ∧ fixCrc [190] = [190] := by
  have h1 := fixCrc_frame_effect [247, 162, 0, 0, 162, 253] 0
  have h2 := fixCrc_frame_effect [190] 0
  exact ⟨by rw [h1.2.1 0 (by decide)]; decide, h2.2.2.2.1 (by decide)⟩

/-- C6: disconnecting a fresh driver any positive number of times succeeds,
releases the link (queue close, cancel, join, transport disconnect) exactly
once, and every call after the first is a no-op. -/
theorem disconnect_idempotent (n : Nat) (h : 1 ≤ n) :
    disconnectN n newDriver =
      .ok { stopped := true, queueCloses := 1, cancels := 1, joins := 1,
            deviceDisconnects := 1 } ∧
    (∀ st : DriverState, st.stopped = true → Disconnect st = .ok st) := by
  constructor
  · obtain ⟨m, rfl⟩ : ∃ m, n = m + 1 := ⟨n - 1, by omega⟩
    have h1 : Disconnect newDriver =
        .ok { stopped := true, queueCloses := 1, cancels := 1, joins := 1,
              deviceDisconnects := 1 } := by rfl
    unfold disconnectN
    rw [h1]
    exact disconnectN_stopped m _ rfl
  · intro st hst
    simp [Disconnect, hst]

/-- C6 witness: two consecutive disconnect calls on a fresh driver succeed and
release everything exactly once. -/
theorem disconnect_idempotent_witness :
    disconnectN 2 newDriver =
      .ok { stopped := true, queueCloses := 1, cancels := 1, joins := 1,
            deviceDisconnects := 1 } :=
  (disconnect_idempotent 2 (by decide)).1

/-- C1 counterexample: the claimed field layout is off by one. On the claimed
11-byte example payload the decoder fails (the Go code indexes past the end);
on its 12-byte zero-padded extension the decoder reads the speed from payload
byte 1 (value 1, giving 0.1 km/h), not from byte 0 (value 25, which the claim
says gives 2.5 km/h). -/
theorem status_layout_claim_false :
    readStatusBuffer [25, 1, 0, 0, 10, 0, 0, 50, 0, 0, 7] = none ∧
    (readStatusBuffer [25, 1, 0, 0, 10, 0, 0, 50, 0, 0, 7, 0]).map WalkingPadStatus.Speed
      = some (1 / 10) ∧
    ((1 : ℚ) / 10) ≠ 5 / 2 := by
  refine ⟨rfl, by simp [readStatusBuffer], by norm_num⟩

/-- C1 amended: on a payload of at least 12 bytes (after the 2-byte
signature), the decoder skips byte 0 and reads byte 1 as speed (÷10), byte 2
as mode, bytes 3-5 as elapsed seconds (big-endian 24-bit), bytes 6-8 as
distance (big-endian 24-bit, ÷100) and bytes 9-11 as steps. -/
theorem readStatusBuffer_layout (pl : List Nat) (h12 : 12 ≤ pl.length)
    (hb : ∀ b ∈ pl, b < 256) :
    readStatusBuffer pl = some {
      Speed := (pl.getD 1 0 : ℚ) / 10
      Mode := pl.getD 2 0
      Time := ((pl.getD 3 0 * 65536 + pl.getD 4 0 * 256 + pl.getD 5 0 : Nat) : Int)
      WalkedKM := ((pl.getD 6 0 * 65536 + pl.getD 7 0 * 256 + pl.getD 8 0 : Nat) : ℚ) / 100
      Steps := ((pl.getD 9 0 * 65536 + pl.getD 10 0 * 256 + pl.getD 11 0 : Nat) : Int) } := by
  have hbyte : ∀ i, i < 12 → pl[i]? = some (pl.getD i 0) ∧ pl.getD i 0 < 256 := by
    intro i hi
    have hlen : i < pl.length := by omega
    have hgd : pl.getD i 0 = pl[i] := by
      rw [List.getD_eq_getElem?_getD, List.getElem?_eq_getElem hlen]
      rfl
    refine ⟨by rw [List.getElem?_eq_getElem hlen, hgd], ?_⟩
    rw [hgd]
    exact hb _ (pl.getElem_mem hlen)
  obtain ⟨e1, l1⟩ := hbyte 1 (by omega)
  obtain ⟨e2, l2⟩ := hbyte 2 (by omega)
  obtain ⟨e3, l3⟩ := hbyte 3 (by omega)
  obtain ⟨e4, l4⟩ := hbyte 4 (by omega)
  obtain ⟨e5, l5⟩ := hbyte 5 (by omega)
  obtain ⟨e6, l6⟩ := hbyte 6 (by omega)
  obtain ⟨e7, l7⟩ := hbyte 7 (by omega)
  obtain ⟨e8, l8⟩ := hbyte 8 (by omega)
  obtain ⟨e9, l9⟩ := hbyte 9 (by omega)
  obtain ⟨e10, l10⟩ := hbyte 10 (by omega)
  obtain ⟨e11, l11⟩ := hbyte 11 (by omega)
  simp only [readStatusBuffer, e1, e2, e3, e4, e5, e6, e7, e8, e9, e10, e11,
    Option.bind_eq_bind, Option.some_bind, Option.some.injEq, pure]
  rw [lor3_eq _ _ _ l4 l5, lor3_eq _ _ _ l7 l8, lor3_eq _ _ _ l10 l11]

/-- C1 amended witness: the 12-byte payload {0,25,1,0,0,10,0,0,50,0,0,7}
decodes to speed 2.5 km/h, Manual mode, 10 s elapsed, 0.50 km and 7 steps. -/
theorem readStatusBuffer_layout_witness :
    readStatusBuffer [0, 25, 1, 0, 0, 10, 0, 0, 50, 0, 0, 7] =
      some { Speed := 5 / 2, Mode := WalkingPadModeManual, Time := 10,
             WalkedKM := 1 / 2, Steps := 7 } := by
  have h := readStatusBuffer_layout [0, 25, 1, 0, 0, 10, 0, 0, 50, 0, 0, 7]
    (by decide) (by decide)
  rw [h]
  norm_num [List.getD, WalkingPadModeManual]

/-- C2: for every truncation length 0..11 of the status payload, the decode
triggered by a status-signature notification is an out-of-range panic (the Go
code has no length guard), not a rejected MalformedFrame result. -/
theorem short_status_payload_panics :
    ((List.range 12).all fun n =>
      (onBufferReceive (248 :: 162 :: List.replicate n 0)).isPanicked) = true := by
  decide

/-- C3: while started, a tick adds the three deltas to all six accumulators
exactly when every delta is non-negative; a tick with any negative delta
leaves every accumulator unchanged (only the stored reading advances); and
over any run of accumulate steps no accumulator ever decreases. -/
theorem accumulators_guarded_monotone (st : SessionState) (r : UpdateStats)
    (rs : List UpdateStats) (hs : st.started = true) :
    (0 ≤ r.Time - st.status.Time → 0 ≤ r.Steps - st.status.Steps →
      0 ≤ r.WalkedKM - st.status.WalkedKM →
      accumStep st r =
        { st with
            status := r,
            timeAccum := st.timeAccum + (r.Time - st.status.Time),
            timeAccumTotal := st.timeAccumTotal + (r.Time - st.status.Time),
            stepsAccum := st.stepsAccum + (r.Steps - st.status.Steps),
            stepsAccumTotal := st.stepsAccumTotal + (r.Steps - st.status.Steps),
            kmAccum := st.kmAccum + (r.WalkedKM - st.status.WalkedKM),
            kmAccumTotal := st.kmAccumTotal + (r.WalkedKM - st.status.WalkedKM) }) ∧
    (¬(0 ≤ r.Time - st.status.Time ∧ 0 ≤ r.Steps - st.status.Steps ∧
        0 ≤ r.WalkedKM - st.status.WalkedKM) →
      accumStep st r = { st with status := r }) ∧
    (st.timeAccum ≤ (accumRun st rs).timeAccum ∧
     st.timeAccumTotal ≤ (accumRun st rs).timeAccumTotal ∧
     st.stepsAccum ≤ (accumRun st rs).stepsAccum ∧
     st.stepsAccumTotal ≤ (accumRun st rs).stepsAccumTotal ∧
     st.kmAccum ≤ (accumRun st rs).kmAccum ∧
     st.kmAccumTotal ≤ (accumRun st rs).kmAccumTotal) := by
  refine ⟨?_, ?_, accumRun_mono rs st⟩
  · intro h1 h2 h3
    unfold accumStep accumulateTick
    simp [hs, h1, h2, h3]
  · intro hneg
    unfold accumStep accumulateTick
    dsimp only
    rw [if_neg hneg, ite_self]

/-- C3 witness: from a started zero state, the reading (1.5 km/h, 5 s,
0.1 km, 12 steps) advances every accumulator by its delta. -/
theorem accumulators_guarded_monotone_witness :
    accumStep ⟨true, ⟨0, 0, 0, 0⟩, 0, 0, 0, 0, 0, 0, 0⟩ ⟨3/2, 5, 1/10, 12⟩ =
      ⟨true, ⟨3/2, 5, 1/10, 12⟩, 0, 5, 5, 12, 12, 1/10, 1/10⟩ := by
  have h := (accumulators_guarded_monotone ⟨true, ⟨0, 0, 0, 0⟩, 0, 0, 0, 0, 0, 0, 0⟩
    ⟨3/2, 5, 1/10, 12⟩ [] rfl).1 (by norm_num) (by norm_num) (by norm_num)
  rw [h]
  norm_num

/-- C4: a Start intent with the last known mode Standby enqueues exactly the
four entries mode-change-to-Manual, start-belt, wait 2500 ms, change-speed to
the target, in this order; with any other last known mode it enqueues exactly
the last three. -/
theorem processCmds_start_sequence (lastMode : Nat) (v : ℚ) (h0 : 0 ≤ v) (h6 : v ≤ 6) :
    (lastMode = WalkingPadModeStandby →
      processCmds lastMode (.cmdStart v) =
        .ok [changeModeCmd WalkingPadModeManual, startBeltCmd, waitCmd 2500,
             changeSpeedCmd ⌊v * 10⌋.toNat]) ∧
    (lastMode ≠ WalkingPadModeStandby →
      processCmds lastMode (.cmdStart v) =
        .ok [startBeltCmd, waitCmd 2500, changeSpeedCmd ⌊v * 10⌋.toNat]) := by
  have hcs : ChangeSpeed v = .ok (changeSpeedCmd ⌊v * 10⌋.toNat) := by
    unfold ChangeSpeed
    rw [if_neg (by push_neg; exact ⟨h0, h6⟩)]
  constructor
  · intro hm
    simp [processCmds, hm, hcs]
  · intro hm
    simp [processCmds, hm, hcs]

/-- C4 witness: Start at 2.5 km/h from Standby enqueues the four entries with
the converted speed byte 25. -/
theorem processCmds_start_sequence_witness :
    processCmds 2 (.cmdStart (5/2)) =
      .ok [changeModeCmd 1, startBeltCmd, waitCmd 2500, changeSpeedCmd 25] := by
  have h := (processCmds_start_sequence 2 (5/2) (by norm_num) (by norm_num)).1 rfl
  rw [h]
  norm_num [WalkingPadModeManual]
  rfl

/-- C7: on a Ready tick, a not-started session whose speed rose becomes
started; a started session whose speed decreased to exactly zero becomes
not-started; a started session whose speed decreased to a nonzero value stays
started. -/
theorem sync_external_start_stop (sent : Bool) (now : Int) (lastSpeed : ℚ)
    (st : SessionState) :
    (st.started = false → lastSpeed < st.status.Speed →
      (syncExternalChanges sent now lastSpeed st).started = true) ∧
    (st.started = true → st.status.Speed < lastSpeed → st.status.Speed = 0 →
      (syncExternalChanges sent now lastSpeed st).started = false) ∧
    (st.started = true → st.status.Speed < lastSpeed → st.status.Speed ≠ 0 →
      (syncExternalChanges sent now lastSpeed st).started = true) := by
  refine ⟨?_, ?_, ?_⟩
  · intro h1 h2
    have hd : 0 < st.status.Speed - lastSpeed := by linarith
    have hd2 : ¬(st.status.Speed - lastSpeed < 0) := by linarith
    unfold syncExternalChanges
    simp [h1, hd, hd2, onBeltStart]
  · intro h1 h2 h3
    have hd : st.status.Speed - lastSpeed < 0 := by linarith
    have hd2 : ¬(0 < st.status.Speed - lastSpeed) := by linarith
    have hl : 0 < lastSpeed := by linarith
    unfold syncExternalChanges
    cases sent <;> simp [h1, hd, hd2, h3, hl, onBeltStop]
  · intro h1 h2 h3
    have hd2 : ¬(0 < st.status.Speed - lastSpeed) := by linarith
    unfold syncExternalChanges
    simp [h1, hd2, h3]

/-- C7 witness: speed 0 to 1.5 while not started sets started; 1.5 to 0 while
started clears it; 1.5 to 0.8 while started leaves it set. -/
theorem sync_external_start_stop_witness :
    (syncExternalChanges false 0 0 ⟨false, ⟨3/2, 0, 0, 0⟩, 0, 0, 0, 0, 0, 0, 0⟩).started
      = true ∧
    (syncExternalChanges false 0 (3/2) ⟨true, ⟨0, 0, 0, 0⟩, 0, 0, 0, 0, 0, 0, 0⟩).started
      = false ∧
    (syncExternalChanges false 0 (3/2) ⟨true, ⟨4/5, 0, 0, 0⟩, 0, 0, 0, 0, 0, 0, 0⟩).started
      = true :=
  ⟨(sync_external_start_stop false 0 0 _).1 rfl (by norm_num),
   (sync_external_start_stop false 0 (3/2) _).2.1 rfl (by norm_num) rfl,
   (sync_external_start_stop false 0 (3/2) _).2.2 rfl (by norm_num) (by norm_num)⟩

/-- C8: on belt stop, the since-start accumulators and the start timestamp are
reset exactly when the webhook was reported sent: on any failure (no URL
configured, session below the minimum-duration threshold, request failure,
non-200 response) every accumulator is carried forward unchanged. -/
theorem onBeltStop_reset_only_if_sent (url : Option Unit) (sinceStart threshold : Int)
    (outcome : WebhookOutcome) (st : SessionState) (sent : Bool)
    (hsent : sent = sendWebhook url sinceStart threshold outcome) :
    (sent = false → onBeltStop sent st = { st with started := false }) ∧
    (sent = true →
      onBeltStop sent st =
        { st with
            started := false, startedAt := 0,
            timeAccum := 0, stepsAccum := 0, kmAccum := 0 }) ∧
    (url = none → sent = false) ∧
    (sinceStart < threshold → sent = false) ∧
    (outcome = .requestFailed → sent = false) ∧
    (∀ code, outcome = .httpStatus code → code ≠ 200 → sent = false) := by
  refine ⟨?_, ?_, ?_, ?_, ?_, ?_⟩
  · intro h
    rw [h]
    rfl
  · intro h
    rw [h]
    rfl
  · intro h
    rw [hsent, h]
    rfl
  · intro h
    rw [hsent]
    cases url with
    | none => rfl
    | some u => simp [sendWebhook, h]
  · intro h
    rw [hsent, h]
    cases url with
    | none => rfl
    | some u => simp [sendWebhook]
  · intro code hoc hne
    rw [hsent, hoc]
    cases url with
    | none => rfl
    | some u => simp [sendWebhook, hne]

/-- C8 witness: a failed delivery attempt leaves the accumulators of a
stopped session untouched. -/
theorem onBeltStop_reset_only_if_sent_witness :
    onBeltStop false ⟨true, ⟨0, 0, 0, 0⟩, 7, 9, 9, 11, 11, 13, 13⟩ =
      ⟨false, ⟨0, 0, 0, 0⟩, 7, 9, 9, 11, 11, 13, 13⟩ :=
  (onBeltStop_reset_only_if_sent none 0 0 .requestFailed _ false rfl).1 rfl

/-- C9: ChangeSpeed outside [0,6] km/h aborts (models the Go
`panic("invalid speed")`); inside the range it enqueues exactly one
speed-change entry carrying the byte of v*10 and the speed-click intent path
never touches the started flag, so under the precondition the abort branch is
unreachable. -/
theorem changeSpeed_precondition (v : ℚ) (app : UIState) :
    ((v < 0 ∨ 6 < v) → ChangeSpeed v = .error ()) ∧
    (0 ≤ v → v ≤ 6 →
      ChangeSpeed v = .ok (changeSpeedCmd ⌊v * 10⌋.toNat) ∧
      (∀ lastMode, processCmds lastMode (.cmdChangeSpeed v) =
        .ok [changeSpeedCmd ⌊v * 10⌋.toNat]) ∧
      (onSpeedClick app v).1.started = app.started) := by
  constructor
  · intro h
    unfold ChangeSpeed
    rw [if_pos h]
  · intro h0 h6
    have hcs : ChangeSpeed v = .ok (changeSpeedCmd ⌊v * 10⌋.toNat) := by
      unfold ChangeSpeed
      rw [if_neg (by push_neg; exact ⟨h0, h6⟩)]
    refine ⟨hcs, fun lastMode => by simp [processCmds, hcs], ?_⟩
    unfold onSpeedClick
    dsimp only
    split <;> rfl

/-- C9 witness: 7 km/h aborts; 2.5 km/h enqueues one command with byte 25. -/
theorem changeSpeed_precondition_witness :
    ChangeSpeed 7 = .error () ∧ ChangeSpeed (5/2) = .ok (changeSpeedCmd 25) := by
  have h1 := (changeSpeed_precondition 7 ⟨0, false, false⟩).1 (by norm_num)
  have h2 := ((changeSpeed_precondition (5/2) ⟨0, false, false⟩).2
    (by norm_num) (by norm_num)).1
  refine ⟨h1, ?_⟩
  rw [h2]
  norm_num
  rfl

end Walkingpad
